import Mathlib

/-
  Verification of the Parameter/Meter State & Mapping Engine of the
  Secret-Weapon-DSP-Site repository (src/Uppercomp_WAM/compui.js and the
  near-identical src/unnamed/part_000).

  JavaScript numbers are modelled as exact rationals; Math.max / Math.min /
  Math.abs are the rational max / min / absolute value, Math.round x is
  the floor of x + 1/2 (JS rounds half toward positive infinity), and
  Math.pow with exponent 3 is the cube.
-/

/-- RGB color triple, as produced by lerpColor (integer channels). -/
structure RGB where
  r : ℤ
  g : ℤ
  b : ℤ
deriving DecidableEq

/-- Source constant offColor = [51, 51, 51]. -/
def offColor : RGB := ⟨51, 51, 51⟩

/-- Source constant greenColor = [76, 175, 80]. -/
def greenColor : RGB := ⟨76, 175, 80⟩

/-- Source constant yellowColor = [255, 235, 59]. -/
def yellowColor : RGB := ⟨255, 235, 59⟩

/-- Source constant redColor = [255, 82, 82]. -/
def redColor : RGB := ⟨255, 82, 82⟩

/-- cubicEase from compui.js lines 20-24:
    t < 0.5 gives 4*t*t*t, otherwise 1 - Math.pow(-2*t+2, 3)/2. -/
def cubicEase (t : ℚ) : ℚ :=
  if t < 1/2 then 4 * t * t * t else 1 - (-2 * t + 2) ^ 3 / 2

/-- JavaScript Math.round: floor of x + 1/2. -/
def jsRound (x : ℚ) : ℤ := ⌊x + 1/2⌋

/-- lerpColor from compui.js lines 27-33: eases t with cubicEase, then
    rounds each linearly interpolated channel.  Note the source applies
    cubicEase to t directly, without clamping t to the unit interval. -/
def lerpColor (cOff cOn : RGB) (t : ℚ) : RGB :=
  let eased := cubicEase t
  ⟨jsRound ((cOff.r : ℚ) + ((cOn.r : ℚ) - (cOff.r : ℚ)) * eased),
   jsRound ((cOff.g : ℚ) + ((cOn.g : ℚ) - (cOff.g : ℚ)) * eased),
   jsRound ((cOff.b : ℚ) + ((cOn.b : ℚ) - (cOff.b : ℚ)) * eased)⟩

/-- One knob's state: the fields of this.knobs[param] that carry values
    (element, isDragging and lastY are DOM and gesture-capture state,
    out of scope here). -/
structure Knob where
  currentValue : ℚ
  targetValue : ℚ
  min : ℚ
  max : ℚ
deriving DecidableEq

/-- Clamp helper: Math.max(lo, Math.min(hi, v)) as used by the source. -/
def clamp (lo hi v : ℚ) : ℚ := max lo (min hi v)

/-- The all-parameter listener body from compui.js lines 114-126 (host echo):
    both targetValue and currentValue are assigned the raw incoming value. -/
def paramListener (k : Knob) (value : ℚ) : Knob :=
  { k with targetValue := value, currentValue := value }

/-- adjustKnobValue from compui.js lines 262-268 (gesture delta), with the
    sensitivity constant abstracted as an argument (compui.js uses 0.3,
    part_000 uses 1.0). -/
def adjustKnobValue (sensitivity : ℚ) (k : Knob) (deltaY : ℚ) : Knob :=
  let range := k.max - k.min
  let change := deltaY * sensitivity * range / 100
  { k with targetValue := max k.min (min k.max (k.targetValue - change)) }

/-- The per-knob smoothing step from animate (compui.js lines 495-508), with
    the smoothing factor abstracted as an argument (compui.js uses 0.2,
    part_000 uses 0.5).  Returns the updated knob and the value sent to the
    host via sendEventOrValue, if any. -/
def knobAdvance (smoothingFactor : ℚ) (k : Knob) : Knob × Option ℚ :=
  let diff := k.targetValue - k.currentValue
  if 1/10000 < |diff| then
    let c := k.currentValue + diff * smoothingFactor
    ({ k with currentValue := c }, some c)
  else
    (k, none)

/-- State part of knobAdvance. -/
def knobAdvanceState (f : ℚ) (k : Knob) : Knob := (knobAdvance f k).1

/-- Iterated smoothing steps. -/
def iterAdv (f : ℚ) : ℕ → Knob → Knob
  | 0, k => k
  | n + 1, k => iterAdv f n (knobAdvanceState f k)

/-- The bounds invariant of a knob. -/
def knobInv (k : Knob) : Prop :=
  k.min ≤ k.currentValue ∧ k.currentValue ≤ k.max
    ∧ k.min ≤ k.targetValue ∧ k.targetValue ≤ k.max

/-- The three meters of this.meters (value and peak for each). -/
structure Meters where
  grValue : ℚ
  grPeak : ℚ
  inValue : ℚ
  inPeak : ℚ
  outValue : ℚ
  outPeak : ℚ
deriving DecidableEq

/-- Initial meter state from the constructor (compui.js lines 44-48). -/
def meters0 : Meters := ⟨0, 0, -36, -36, -36, -36⟩

/-- this.decayRate = 0.5 dB per animation frame. -/
def decayRate : ℚ := 1/2

/-- Endpoint listener for gainReduction (compui.js lines 130-132). -/
def gainReductionListener (m : Meters) (v : ℚ) : Meters := { m with grValue := v }

/-- Endpoint listener for inputMeter (compui.js lines 135-137). -/
def inputMeterListener (m : Meters) (v : ℚ) : Meters := { m with inValue := v }

/-- Endpoint listener for outputMeter (compui.js lines 140-142). -/
def outputMeterListener (m : Meters) (v : ℚ) : Meters := { m with outValue := v }

/-- Steps 1-3 of animate (compui.js lines 467-492): silence floor for the
    gain-reduction meter, peak decay for input and output, then the
    gain-reduction dead zone. -/
def animateMeters (m : Meters) : Meters :=
  let m1 := if m.inValue < -50 then { m with grValue := 0, grPeak := 0 } else m
  let m2 := { m1 with inPeak := max m1.inValue (m1.inPeak - decayRate),
                      outPeak := max m1.outValue (m1.outPeak - decayRate) }
  if |m2.grValue| < 1/20 then { m2 with grPeak := 0, grValue := 0 }
  else { m2 with grPeak := m2.grValue }

/-- The waveform-history push from animate (compui.js lines 514-521):
    append, then drop the element at index 0 if the length now exceeds
    the capacity N (this.historyLength, default 30). -/
def pushHistory {α : Type} (N : ℕ) (l : List α) (x : α) : List α :=
  let l2 := l ++ [x]
  if N < l2.length then l2.tail else l2

/-- Per-LED intensity for the ascending meters in updateMeters
    (compui.js lines 578-586 and the final clamp at line 602). -/
def ascDotIntensity (meterValue dotDb dbStep : ℚ) : ℚ :=
  let raw :=
    if dotDb ≤ meterValue then 1
    else if meterValue < dotDb - dbStep then 0
    else (meterValue - (dotDb - dbStep)) / dbStep
  max 0 (min 1 raw)

/-- Per-LED intensity for the gain-reduction meter in updateMeters
    (compui.js lines 587-602): the meter value is clamped to at most 0,
    then mapped with inverted polarity, then clamped to the unit interval. -/
def grDotIntensity (meterValue dotDb dbStep : ℚ) : ℚ :=
  let clampVal := min 0 meterValue
  let raw :=
    if -(1/100) ≤ clampVal then 0
    else if clampVal ≤ dotDb then 1
    else if dotDb + dbStep < clampVal then 0
    else (dotDb + dbStep - clampVal) / dbStep
  max 0 (min 1 raw)

/-- The gain-reduction meter has 24 dots (makeDots), range 36 dB, so the
    per-dot step is rng / (total - 1) = 36 / 23. -/
def grMeterDbStep : ℚ := 36 / 23

/-- Represented dB value of gain-reduction dot i: minDb - i * dbStep with
    minDb = 0 (descending configuration of grMeter). -/
def grDotDb (i : ℕ) : ℚ := 0 - (i : ℚ) * grMeterDbStep

/-- Concrete knob used in the smoothing scenario: currentValue 0,
    targetValue 10. -/
def knobC3 : Knob := ⟨0, 10, 0, 10⟩

-- ------------------------------------------------------------------
-- Helper lemmas
-- ------------------------------------------------------------------

lemma knobAdvance_noop {f : ℚ} {k : Knob}
    (h : |k.targetValue - k.currentValue| ≤ 1/10000) :
    knobAdvance f k = (k, none) := by
  unfold knobAdvance
  simp only [not_lt.2 h, if_false]

lemma iterAdv_add (f : ℚ) (m n : ℕ) (k : Knob) :
    iterAdv f (m + n) k = iterAdv f m (iterAdv f n k) := by
  induction n generalizing k with
  | zero => rfl
  | succ n ih =>
    have h1 : m + (n + 1) = (m + n) + 1 := by omega
    rw [h1]
    show iterAdv f (m + n) (knobAdvanceState f k) = _
    rw [ih]
    rfl

lemma pushHistory_foldl {α : Type} (N : ℕ) (xs : List α) :
    ∀ l : List α, l.length ≤ N →
      List.foldl (pushHistory N) l xs = (l ++ xs).drop ((l ++ xs).length - N) := by
  induction xs with
  | nil =>
    intro l h
    simp only [List.foldl_nil, List.append_nil]
    rw [Nat.sub_eq_zero_of_le h, List.drop_zero]
  | cons x t ih =>
    intro l h
    rw [List.foldl_cons]
    by_cases hc : N < (l ++ [x]).length
    · have hlen : l.length = N := by
        simp only [List.length_append, List.length_singleton] at hc
        omega
      have hpush : pushHistory N l x = (l ++ [x]).tail := by
        simp only [pushHistory, if_pos hc]
      have htl : (l ++ [x]).tail.length ≤ N := by
        simp only [List.length_tail, List.length_append, List.length_singleton]
        omega
      rw [hpush, ih _ htl]
      have hassoc : (l ++ [x]) ++ t = l ++ x :: t := by
        rw [List.append_assoc, List.singleton_append]
      have hrw : (l ++ [x]).tail ++ t = (l ++ x :: t).drop 1 := by
        rw [← hassoc,
          List.drop_append_of_le_length
            (by simp only [List.length_append, List.length_singleton]; omega),
          ← List.drop_one]
      rw [hrw, List.length_drop, List.drop_drop]
      congr 1
      simp only [List.length_append, List.length_cons]
      omega
    · have hpush : pushHistory N l x = l ++ [x] := by
        simp only [pushHistory, if_neg hc]
      have hle : (l ++ [x]).length ≤ N := by omega
      rw [hpush, ih _ hle]
      have hassoc : (l ++ [x]) ++ t = l ++ x :: t := by
        rw [List.append_assoc, List.singleton_append]
      rw [hassoc]

-- ------------------------------------------------------------------
-- Claims
-- ------------------------------------------------------------------

/-- C1 (corrected), counterexample to the claim as stated: for a knob with
    bounds [0, 1], a host echo of 5 leaves currentValue = 5, not the clamped
    value clamp(5, 0, 1) = 1. -/
theorem spec_C1_cex : (paramListener ⟨0, 0, 0, 1⟩ 5).currentValue ≠ clamp 0 1 5 := by
  norm_num [paramListener, clamp, min_def, max_def]

/-- C1 (amended): for every host echo of a known parameter, paramListener
    sets both targetValue and currentValue to the host value unchanged (no
    clamping) in the same call, so immediately afterwards
    currentValue = targetValue = value. -/
theorem spec_C1 : ∀ (k : Knob) (v : ℚ),
    (paramListener k v).currentValue = v ∧ (paramListener k v).targetValue = v :=
  fun _ _ => ⟨rfl, rfl⟩

/-- C5 (corrected), counterexample to the claim as stated: lerpColor does not
    clamp t, so at t = -1 the eased factor is -4 and the result differs from
    the t = 0 result (red channel -765 versus 51). -/
theorem spec_C5_cex : lerpColor offColor redColor (-1) ≠ lerpColor offColor redColor 0 := by
  simp only [lerpColor, cubicEase, offColor, redColor, jsRound, ne_eq, RGB.mk.injEq]
  norm_num

/-- C5 (amended): lerpColor applies the ease curve and per-channel
    interpolation to t as given, without clamping; the clamping instead
    happens in its caller updateMeters, whose per-LED intensities (both the
    ascending and the gain-reduction mapping) always lie in [0, 1] before
    being passed to lerpColor. -/
theorem spec_C5 : ∀ v dotDb dbStep : ℚ,
    (0 ≤ ascDotIntensity v dotDb dbStep ∧ ascDotIntensity v dotDb dbStep ≤ 1)
    ∧ (0 ≤ grDotIntensity v dotDb dbStep ∧ grDotIntensity v dotDb dbStep ≤ 1) := by
  intro v dotDb dbStep
  simp only [ascDotIntensity, grDotIntensity]
  exact ⟨⟨le_max_left 0 _, max_le (by norm_num) (min_le_left 1 _)⟩,
         ⟨le_max_left 0 _, max_le (by norm_num) (min_le_left 1 _)⟩⟩

/-- C6 (confirmed): cubicEase maps 0 to 0, 1/2 to 1/2 and 1 to 1, and is
    monotonically non-decreasing on [0, 1]. -/
theorem spec_C6 :
    cubicEase 0 = 0 ∧ cubicEase (1/2) = 1/2 ∧ cubicEase 1 = 1
    ∧ ∀ a b : ℚ, 0 ≤ a → a ≤ b → b ≤ 1 → cubicEase a ≤ cubicEase b := by
  refine ⟨by norm_num [cubicEase], by norm_num [cubicEase], by norm_num [cubicEase], ?_⟩
  intro a b ha hab hb
  unfold cubicEase
  split_ifs with h1 h2 h2
  · nlinarith [pow_le_pow_left₀ ha hab 3]
  · have e1 : a ^ 3 ≤ (1/2 : ℚ) ^ 3 := pow_le_pow_left₀ ha h1.le 3
    have e2 : (-2 * b + 2) ^ 3 ≤ 1 := pow_le_one₀ (by linarith) (by linarith)
    nlinarith [e1, e2]
  · linarith
  · have e3 : (-2 * b + 2) ^ 3 ≤ (-2 * a + 2) ^ 3 :=
      pow_le_pow_left₀ (by linarith) (by linarith) 3
    linarith

/-- C6 witness: the monotonicity part applied at 1/4 and 3/4. -/
theorem spec_C6_wit : cubicEase (1/4) ≤ cubicEase (3/4) :=
  spec_C6.2.2.2 (1/4) (3/4) (by norm_num) (by norm_num) (by norm_num)

/-- C7 (confirmed): on every tick, each ascending-level meter's new peak is
    the maximum of its raw value and its old peak minus the decay rate. -/
theorem spec_C7 : ∀ m : Meters,
    (animateMeters m).inPeak = max m.inValue (m.inPeak - decayRate)
    ∧ (animateMeters m).outPeak = max m.outValue (m.outPeak - decayRate) := by
  intro m
  simp only [animateMeters]
  split_ifs <;> exact ⟨rfl, rfl⟩

/-- C9 (confirmed): a gesture delta sets targetValue to the clamp of
    targetValue - deltaY * sensitivity * (max - min) / 100 into [min, max],
    and leaves currentValue unchanged. -/
theorem spec_C9 : ∀ (s : ℚ) (k : Knob) (d : ℚ),
    (adjustKnobValue s k d).targetValue
      = clamp k.min k.max (k.targetValue - d * s * (k.max - k.min) / 100)
    ∧ (adjustKnobValue s k d).currentValue = k.currentValue :=
  fun _ _ _ => ⟨rfl, rfl⟩

lemma gapAfter17 :
    |(iterAdv (1/2) 17 knobC3).targetValue - (iterAdv (1/2) 17 knobC3).currentValue|
      < 1/10000 := by
  norm_num [iterAdv, knobAdvanceState, knobAdvance, knobC3, abs]

lemma iterAdv_stable (d : ℕ) :
    iterAdv (1/2) d (iterAdv (1/2) 17 knobC3) = iterAdv (1/2) 17 knobC3 := by
  induction d with
  | zero => rfl
  | succ n ih =>
    have hstep : knobAdvanceState (1/2) (iterAdv (1/2) 17 knobC3)
        = iterAdv (1/2) 17 knobC3 := by
      unfold knobAdvanceState
      rw [knobAdvance_noop gapAfter17.le]
    show iterAdv (1/2) n (knobAdvanceState (1/2) (iterAdv (1/2) 17 knobC3))
        = iterAdv (1/2) 17 knobC3
    rw [hstep, ih]

/-- C2 (corrected), counterexample to the claim as stated: a host echo of 5
    on a knob with bounds [0, 1] leaves targetValue = 5 above max, so the
    invariant is not restored by clamping. -/
theorem spec_C2_cex : ¬ knobInv (paramListener ⟨0, 0, 0, 1⟩ 5) := by
  intro h
  simp only [knobInv, paramListener] at h
  norm_num at h

/-- C2 (amended): gesture deltas and smoothing steps preserve the invariant
    min ≤ currentValue ≤ max and min ≤ targetValue ≤ max (gesture inputs are
    clamped into range); host echoes assign the raw value without clamping
    and therefore preserve the invariant only when the echoed value already
    lies in [min, max]. -/
theorem spec_C2 :
    (∀ (s : ℚ) (k : Knob) (d : ℚ), knobInv k → knobInv (adjustKnobValue s k d))
    ∧ (∀ (f : ℚ) (k : Knob), 0 ≤ f → f ≤ 1 → knobInv k →
        knobInv (knobAdvanceState f k))
    ∧ (∀ (k : Knob) (v : ℚ), k.min ≤ v → v ≤ k.max →
        knobInv (paramListener k v)) := by
  refine ⟨?_, ?_, ?_⟩
  · intro s k d h
    obtain ⟨h1, h2, h3, h4⟩ := h
    simp only [knobInv, adjustKnobValue]
    exact ⟨h1, h2, le_max_left _ _, max_le (le_trans h1 h2) (min_le_left _ _)⟩
  · intro f k hf0 hf1 h
    obtain ⟨h1, h2, h3, h4⟩ := h
    simp only [knobInv, knobAdvanceState, knobAdvance]
    split_ifs with hc
    · refine ⟨?_, ?_, h3, h4⟩
      · show k.min ≤ k.currentValue + (k.targetValue - k.currentValue) * f
        nlinarith [mul_nonneg (by linarith : (0:ℚ) ≤ 1 - f)
            (by linarith : (0:ℚ) ≤ k.currentValue - k.min),
          mul_nonneg hf0 (by linarith : (0:ℚ) ≤ k.targetValue - k.min)]
      · show k.currentValue + (k.targetValue - k.currentValue) * f ≤ k.max
        nlinarith [mul_nonneg (by linarith : (0:ℚ) ≤ 1 - f)
            (by linarith : (0:ℚ) ≤ k.max - k.currentValue),
          mul_nonneg hf0 (by linarith : (0:ℚ) ≤ k.max - k.targetValue)]
    · exact ⟨h1, h2, h3, h4⟩
  · intro k v hv1 hv2
    simp only [knobInv, paramListener]
    exact ⟨hv1, hv2, hv1, hv2⟩

/-- C2 witness: a host echo inside [min, max] preserves the invariant. -/
theorem spec_C2_wit : knobInv (paramListener ⟨0, 0, 0, 1⟩ (1/2)) :=
  spec_C2.2.2 ⟨0, 0, 0, 1⟩ (1/2) (by norm_num) (by norm_num)

/-- C3 (confirmed): with targetValue 10, currentValue 0 and smoothing factor
    1/2, one advance yields currentValue 5 exactly; whenever the gap exceeds
    the threshold 1/10000, advance adds gap times the smoothing factor to
    currentValue and emits the new value to the host; when the gap does not
    exceed the threshold the step is a no-op that emits nothing; after 17
    iterations the gap is below the threshold, and all further iterations
    leave the state unchanged. -/
theorem spec_C3 :
    (knobAdvanceState (1/2) knobC3).currentValue = 5
    ∧ (∀ (f : ℚ) (k : Knob), 1/10000 < |k.targetValue - k.currentValue| →
        (knobAdvanceState f k).currentValue
            = k.currentValue + (k.targetValue - k.currentValue) * f
          ∧ (knobAdvance f k).2
            = some (k.currentValue + (k.targetValue - k.currentValue) * f))
    ∧ (∀ (f : ℚ) (k : Knob), |k.targetValue - k.currentValue| ≤ 1/10000 →
        knobAdvance f k = (k, none))
    ∧ |(iterAdv (1/2) 17 knobC3).targetValue - (iterAdv (1/2) 17 knobC3).currentValue|
        < 1/10000
    ∧ (∀ d : ℕ, iterAdv (1/2) (d + 17) knobC3 = iterAdv (1/2) 17 knobC3) := by
  refine ⟨?_, ?_, ?_, gapAfter17, ?_⟩
  · norm_num [knobAdvanceState, knobAdvance, knobC3, abs]
  · intro f k h
    simp only [knobAdvanceState, knobAdvance, if_pos h]
    simp
  · intro f k h
    exact knobAdvance_noop h
  · intro d
    rw [iterAdv_add (1/2) d 17 knobC3, iterAdv_stable d]

/-- C3 witness: at the converged state the step emits nothing and leaves the
    knob unchanged. -/
theorem spec_C3_wit :
    knobAdvance (1/2) (iterAdv (1/2) 17 knobC3) = (iterAdv (1/2) 17 knobC3, none) :=
  spec_C3.2.2.1 (1/2) (iterAdv (1/2) 17 knobC3) (le_of_lt spec_C3.2.2.2.1)

/-- C4 (confirmed): on every tick, the gain-reduction meter is zeroed when
    the input meter's raw value is below -50; independently, when the
    gain-reduction raw value is inside the dead zone (absolute value below
    0.05) both peak and raw value are forced to 0, so a sample of 0.03
    followed by a tick yields peak 0 exactly; otherwise the peak tracks the
    raw value directly with no decay. -/
theorem spec_C4 :
    (∀ m : Meters, m.inValue < -50 →
        (animateMeters m).grValue = 0 ∧ (animateMeters m).grPeak = 0)
    ∧ (∀ m : Meters, |m.grValue| < 1/20 →
        (animateMeters m).grValue = 0 ∧ (animateMeters m).grPeak = 0)
    ∧ (animateMeters (gainReductionListener meters0 (3/100))).grPeak = 0
    ∧ (∀ m : Meters, -50 ≤ m.inValue → 1/20 ≤ |m.grValue| →
        (animateMeters m).grPeak = m.grValue
          ∧ (animateMeters m).grValue = m.grValue) := by
  refine ⟨?_, ?_, ?_, ?_⟩
  · intro m h
    simp only [animateMeters, if_pos h]
    norm_num
  · intro m h
    by_cases hs : m.inValue < -50
    · simp only [animateMeters, if_pos hs]
      norm_num
    · simp only [animateMeters, if_neg hs]
      rw [if_pos h]
      simp
  · norm_num [animateMeters, gainReductionListener, meters0, abs]
  · intro m h1 h2
    simp only [animateMeters, if_neg (not_lt.2 h1)]
    rw [if_neg (not_lt.2 h2)]
    exact ⟨rfl, rfl⟩

/-- C4 witness: with the input meter at -55, a tick zeroes the
    gain-reduction meter regardless of its prior state. -/
theorem spec_C4_wit :
    (animateMeters ⟨7, 9, -55, 0, 0, 0⟩).grValue = 0
      ∧ (animateMeters ⟨7, 9, -55, 0, 0, 0⟩).grPeak = 0 :=
  spec_C4.1 ⟨7, 9, -55, 0, 0, 0⟩ (by norm_num)

/-- C8 (confirmed): pushing N + 5 samples into the (initially empty) history
    buffer of capacity N leaves exactly the last N pushed samples in order,
    oldest first. -/
theorem spec_C8 : ∀ {α : Type} (N : ℕ) (xs : List α), xs.length = N + 5 →
    List.foldl (pushHistory N) [] xs = xs.drop 5 ∧ (xs.drop 5).length = N := by
  intro α N xs h
  constructor
  · have hfold := pushHistory_foldl N xs [] (by simp)
    simpa [h, Nat.add_sub_cancel_left] using hfold
  · rw [List.length_drop, h]
    omega

/-- C8 witness: pushing 7 samples into a capacity-2 buffer keeps the last 2. -/
theorem spec_C8_wit :
    List.foldl (pushHistory 2) [] [0, 1, 2, 3, 4, 5, 6] = [0, 1, 2, 3, 4, 5, 6].drop 5
      ∧ (([0, 1, 2, 3, 4, 5, 6] : List ℕ).drop 5).length = 2 :=
  spec_C8 2 [0, 1, 2, 3, 4, 5, 6] (by rfl)

lemma grDotIntensity_zero {v dotDb dbStep : ℚ} (h : -(1/100) ≤ min 0 v) :
    grDotIntensity v dotDb dbStep = 0 := by
  simp only [grDotIntensity, if_pos h]
  norm_num [min_def, max_def]

/-- C10 (confirmed): the gain-reduction LED mapping first clamps the meter
    value to at most 0, and whenever that clamped value is at least -0.01 -
    in particular for every non-negative meter value - every LED of the
    gain-reduction meter has intensity exactly 0. -/
theorem spec_C10 :
    (∀ v dotDb dbStep : ℚ, -(1/100) ≤ min 0 v → grDotIntensity v dotDb dbStep = 0)
    ∧ (∀ (v : ℚ) (i : ℕ), 0 ≤ v → grDotIntensity v (grDotDb i) grMeterDbStep = 0) := by
  constructor
  · intro v dotDb dbStep h
    exact grDotIntensity_zero h
  · intro v i h
    refine grDotIntensity_zero ?_
    rw [min_eq_left h]
    norm_num

/-- C10 witness: a positive gain-reduction reading of 2 lights no LED. -/
theorem spec_C10_wit : grDotIntensity 2 (grDotDb 3) grMeterDbStep = 0 :=
  spec_C10.2 2 3 (by norm_num)
